import Mathlib

/-!
Verification of the version-resolution and dependency-completion engine of the
minecraft-mod-converter repository, as a shallow embedding in Lean 4.

Sources embedded:
  * `src/src/app/page.tsx` — the client: `resolveItem`, `runPool`,
    `handleResolve` (dependency expansion and commit), `handleRemove`,
    `handleToggleSelection`, `handleDownloadSelected`,
    `resolveDependencyTitles`, helpers.
  * the share-code API route (`generateCode`, `computeHash`, `POST`) in its
    db-backed form (the handler importing `@/lib/db`, carried in the repository
    alongside `src/src/app/api/share-code/route.ts`), over an abstract
    key/payload store mirroring `src/src/lib/db.ts`.

Network responses are passed in as explicit values: a filtered or unfiltered
version query result is `Option (List VersionInfo)` where `none` models a
non-ok transport outcome and `some vs` a 200 response with body `vs`.
Status strings are the source's literals; the specification renders them in
English ("pending" = "待解析", "resolvable" = "可更新", "missing" = "缺失",
"paused" = "暫停", "custom" = "自訂", and the export placeholder
"(version missing)" = "(該版本缺失)").
-/

/-- `DependencyItem` from page.tsx: a required dependency reference. -/
structure DependencyItem where
  id : String
  title : String
  iconUrl : Option String := none
deriving DecidableEq, Repr

/-- `CartItem` from page.tsx: one list entry. Optional TS fields are `Option`. -/
structure CartItem where
  id : String
  title : String
  source : String
  currentVersion : String
  targetVersion : String
  status : String
  statusTone : String
  paused : Bool
  lastSupportedVersion : Option String := none
  downloaded : Option Bool := none
  filename : Option String := none
  iconUrl : Option String := none
  dependencies : Option (List DependencyItem) := none
  isDependency : Option Bool := none
  isSelected : Option Bool := none
  note : Option String := none
  isCustom : Option Bool := none
  customUrl : Option String := none
deriving DecidableEq, Repr

/-- A downloadable file of a version record (`VersionInfo.files` element). -/
structure FileInfo where
  url : String
  primary : Option Bool := none
  filename : Option String := none
deriving DecidableEq, Repr

/-- A declared dependency record of a version (`VersionInfo.dependencies`). -/
structure DepRecord where
  project_id : Option String := none
  dependency_type : Option String := none
deriving DecidableEq, Repr

/-- `VersionInfo` from page.tsx: one registry version record. -/
structure VersionInfo where
  id : String
  game_versions : Option (List String) := none
  date_published : Option String := none
  files : Option (List FileInfo) := none
  dependencies : Option (List DepRecord) := none
deriving DecidableEq, Repr

/-- Result of `fetchProjectInfoById`: `{}` (all fields absent) on any failure. -/
structure ProjectInfoResult where
  title : Option String := none
  iconUrl : Option String := none
  currentVersion : Option String := none
deriving DecidableEq, Repr

/-- `dedupe` from page.tsx: `Array.from(new Set(list))` keeps the first
occurrence of each element, in order. -/
def dedupeAux (seen : List String) : List String → List String
  | [] => []
  | x :: xs => if seen.contains x then dedupeAux seen xs else x :: dedupeAux (x :: seen) xs

/-- `dedupe(list: string[])` from page.tsx. -/
def dedupe (l : List String) : List String := dedupeAux [] l

/-- `resolveDependencyTitles` from page.tsx: keep records whose
`dependency_type === "required"` and whose `project_id` is truthy (present and
non-empty), dedupe the ids, and look each id up; a failed project lookup
degrades to title = id, no icon, which coincides with applying the formula
below to the all-`none` `ProjectInfoResult`. `projectOf` is the project
metadata endpoint. -/
def resolveDependencyTitles (projectOf : String → ProjectInfoResult)
    (deps : Option (List DepRecord)) : List DependencyItem :=
  match deps with
  | none => []
  | some ds =>
    let requiredIds := dedupe
      ((ds.filter (fun d => d.dependency_type == some "required" && d.project_id.getD "" != "")).filterMap
        (·.project_id))
    requiredIds.map (fun i =>
      let pi := projectOf i
      { id := i, title := pi.title.getD i, iconUrl := pi.iconUrl })

/-- Key used by the sort in `getLatestSupportedVersion`:
`(x.date_published ?? "")`. -/
def dateKey (v : VersionInfo) : String := v.date_published.getD ""

/-- Stable insertion of a version into a list sorted by descending
`date_published` (models one step of the stable `Array.prototype.sort` with
comparator `(a, b) => (b.date_published ?? "").localeCompare(a.date_published ?? "")`;
on the ASCII ISO timestamps involved, `localeCompare` is lexicographic order). -/
def insertByDateDesc (x : VersionInfo) : List VersionInfo → List VersionInfo
  | [] => [x]
  | y :: ys => if dateKey y < dateKey x then x :: y :: ys else y :: insertByDateDesc x ys

/-- Stable sort by descending `date_published`, as in `getLatestSupportedVersion`. -/
def sortByDateDesc (l : List VersionInfo) : List VersionInfo :=
  l.foldl (fun acc x => insertByDateDesc x acc) []

/-- `getLatestSupportedVersion` from page.tsx: `undefined` on an empty list,
otherwise the first supported game version of the most recently published
record (`sorted[0] ?? versions[0]`, then `.game_versions?.[0]`). -/
def getLatestSupportedVersion (versions : List VersionInfo) : Option String :=
  match versions with
  | [] => none
  | v :: vs =>
    let sorted := sortByDateDesc (v :: vs)
    ((sorted.headD v).game_versions.getD []).head?

/-- The truthiness test `item.isCustom || item.source === "自訂"` guarding the
custom branch of `resolveItem`. -/
def customFlag (item : CartItem) : Bool :=
  item.isCustom.getD false || item.source == "自訂"

/-- The display-field refresh of `resolveItem` (`baseItem`): title and icon
from the project lookup when present, `currentVersion` refreshed only when it
is still the sentinel "未知" ("unknown"). -/
def refreshBase (pi : ProjectInfoResult) (item : CartItem) : CartItem :=
  { item with
    title := pi.title.getD item.title
    iconUrl := match pi.iconUrl with | some u => some u | none => item.iconUrl
    currentVersion :=
      if item.currentVersion == "未知" then pi.currentVersion.getD item.currentVersion
      else item.currentVersion }

/-- `versions[0].files?.[0]?.filename` — the filename `resolveItem` records:
the first file of the first returned match, irrespective of the `primary` flag. -/
def firstFileFilename (v : VersionInfo) : Option String :=
  (v.files.getD []).head?.bind (·.filename)

/-- Modelled from the spec: "take the first returned match's primary build
filename (or first file if none marked primary)" (§4.1). This is the
specification's choice of file, written for comparison with
`firstFileFilename`, which is what `resolveItem` actually computes; the
primary-first rule does appear in the source, but only in `handleDownload`. -/
def specPrimaryFilename (v : VersionInfo) : Option String :=
  match (v.files.getD []).find? (fun f => f.primary.getD false) with
  | some f => f.filename
  | none => (v.files.getD []).head?.bind (·.filename)

/-- The network-facing part of `resolveItem` (everything after the paused and
custom early returns). `primary` is the result of the
`(targetVersion, loader)`-filtered version query, `fallback` the unfiltered
one; `none` is a non-ok response, treated by the code exactly like an
empty match list (both fall through past `if (response.ok) { ... if (versions.length) ... }`). -/
def resolveItemFetch (projectOf : String → ProjectInfoResult)
    (primary fallback : Option (List VersionInfo)) (tv : String)
    (item : CartItem) : CartItem :=
  let baseItem := refreshBase (projectOf item.id) item
  match primary with
  | some (v :: _) =>
    { baseItem with
      targetVersion := tv
      status := "可更新"
      statusTone := "success"
      lastSupportedVersion := none
      filename := firstFileFilename v
      dependencies := some (resolveDependencyTitles projectOf v.dependencies) }
  | _ =>
    match fallback with
    | some versions =>
      { baseItem with
        targetVersion := "-"
        status := "缺失"
        statusTone := "warning"
        lastSupportedVersion := getLatestSupportedVersion versions
        filename := none }
    | none =>
      { baseItem with
        targetVersion := "-"
        status := "缺失"
        statusTone := "warning"
        filename := none }

/-- `resolveItem` from page.tsx. `vF` maps a project id to the filtered
version query result for the pass's fixed `(targetVersion, loader)`; `vA`
to the unfiltered one. -/
def resolveItem (projectOf : String → ProjectInfoResult)
    (vF vA : String → Option (List VersionInfo)) (tv : String)
    (item : CartItem) : CartItem :=
  if item.paused then item
  else if customFlag item then
    { item with
      status := "自訂"
      statusTone := "accent"
      targetVersion := "-"
      currentVersion := "-"
      filename := none }
  else resolveItemFetch projectOf (vF item.id) (vA item.id) tv item

/-- A match file that is not marked primary, listed first. -/
def cexFilePlain : FileInfo :=
  { url := "https://cdn/a", primary := some false, filename := some "a.jar" }

/-- A match file marked primary, listed second. -/
def cexFilePrimary : FileInfo :=
  { url := "https://cdn/b", primary := some true, filename := some "b.jar" }

/-- A version whose primary build is not its first file. -/
def cexVersion : VersionInfo :=
  { id := "v1", files := some [cexFilePlain, cexFilePrimary], dependencies := some [] }

/-- A plain non-paused, non-custom registry entry. -/
def cexItem : CartItem :=
  { id := "sodium", title := "Sodium", source := "Modrinth", currentVersion := "未知",
    targetVersion := "1.21.1", status := "待解析", statusTone := "accent", paused := false,
    isCustom := some false }

/-- Project metadata endpoint that fails for every id (`{}`). -/
def cexProjectOf : String → ProjectInfoResult := fun _ => {}

/-- Filtered version query returning exactly one match, `cexVersion`. -/
def cexVF : String → Option (List VersionInfo) := fun _ => some [cexVersion]

/-- Unfiltered version query returning an empty list. -/
def cexVA : String → Option (List VersionInfo) := fun _ => some []

/-- C1, counterexample: on a match whose `primary` file is not first,
`resolveItem` records the first file's name ("a.jar"), not the primary build's
name ("b.jar") that the claim (spec §4.1) prescribes — the `primary` flag is
never consulted by `resolveItem` (only `handleDownload` uses it). -/
theorem resolveItem_ignores_primary_cex :
    (resolveItem cexProjectOf cexVF cexVA "1.21.1" cexItem).status = "可更新" ∧
    (resolveItem cexProjectOf cexVF cexVA "1.21.1" cexItem).filename = some "a.jar" ∧
    specPrimaryFilename cexVersion = some "b.jar" ∧
    (resolveItem cexProjectOf cexVF cexVA "1.21.1" cexItem).filename ≠ specPrimaryFilename cexVersion := by
  refine ⟨rfl, rfl, rfl, ?_⟩
  decide

/-- C1 (amended): for a non-paused, non-custom entry whose filtered version
query returns at least one match, `resolveItem` returns status "可更新"
("resolvable"), the requested target version, a cleared
`lastSupportedVersion`, and the filename of the *first file* of the first
returned match — the `primary` flag is not consulted. -/
theorem resolveItem_match_spec (projectOf : String → ProjectInfoResult)
    (vF vA : String → Option (List VersionInfo)) (tv : String) (item : CartItem)
    (v : VersionInfo) (vs : List VersionInfo)
    (hp : item.paused = false) (hc : customFlag item = false)
    (hm : vF item.id = some (v :: vs)) :
    (resolveItem projectOf vF vA tv item).status = "可更新" ∧
    (resolveItem projectOf vF vA tv item).targetVersion = tv ∧
    (resolveItem projectOf vF vA tv item).lastSupportedVersion = none ∧
    (resolveItem projectOf vF vA tv item).filename = firstFileFilename v := by
  simp [resolveItem, hp, hc, resolveItemFetch, hm]

/-- C1 witness: the amended claim evaluated at a concrete match. -/
theorem resolveItem_match_spec_witness :
    (resolveItem cexProjectOf cexVF cexVA "1.21.1" cexItem).status = "可更新" ∧
    (resolveItem cexProjectOf cexVF cexVA "1.21.1" cexItem).targetVersion = "1.21.1" ∧
    (resolveItem cexProjectOf cexVF cexVA "1.21.1" cexItem).lastSupportedVersion = none ∧
    (resolveItem cexProjectOf cexVF cexVA "1.21.1" cexItem).filename = firstFileFilename cexVersion :=
  resolveItem_match_spec cexProjectOf cexVF cexVA "1.21.1" cexItem cexVersion [] rfl rfl rfl

/-- A non-paused, non-custom entry carrying a `lastSupportedVersion` from an
earlier resolution pass. -/
def cex2Item : CartItem :=
  { id := "oldmod", title := "OldMod", source := "Modrinth", currentVersion := "1.16.5",
    targetVersion := "-", status := "缺失", statusTone := "warning", paused := false,
    lastSupportedVersion := some "1.16.5" }

/-- C2, counterexample: when both the filtered and the fallback query fail,
`resolveItem` returns status "缺失" ("missing") but *keeps* the entry's prior
`lastSupportedVersion` (here "1.16.5"), because the final return spreads
`baseItem` without clearing the field; the claim says the result has no
`lastSupportedVersion`. -/
theorem resolveItem_fallback_failure_cex :
    (resolveItem cexProjectOf (fun _ => none) (fun _ => none) "1.21.1" cex2Item).status = "缺失" ∧
    (resolveItem cexProjectOf (fun _ => none) (fun _ => none) "1.21.1" cex2Item).lastSupportedVersion
      = some "1.16.5" :=
  ⟨rfl, rfl⟩

/-- C2 (amended): (1) a non-ok primary filtered query is treated identically
to a zero-match result — both fall through to the unfiltered fallback; (2) if
the primary query failed or matched nothing and the fallback query itself
fails, the result has status "缺失" ("missing") and `lastSupportedVersion`
left exactly as it was on the input entry (in particular absent when the entry
had none); (3) for non-paused, non-custom entries `resolveItem` is exactly
this fetch pipeline. -/
theorem resolveItem_transport_spec :
    (∀ (projectOf : String → ProjectInfoResult) (fb : Option (List VersionInfo)) (tv : String)
        (item : CartItem),
      resolveItemFetch projectOf none fb tv item = resolveItemFetch projectOf (some []) fb tv item)
    ∧ (∀ (projectOf : String → ProjectInfoResult) (primary : Option (List VersionInfo)) (tv : String)
        (item : CartItem), primary = none ∨ primary = some [] →
      (resolveItemFetch projectOf primary none tv item).status = "缺失" ∧
      (resolveItemFetch projectOf primary none tv item).lastSupportedVersion
        = item.lastSupportedVersion)
    ∧ (∀ (projectOf : String → ProjectInfoResult) (vF vA : String → Option (List VersionInfo))
        (tv : String) (item : CartItem), item.paused = false → customFlag item = false →
      resolveItem projectOf vF vA tv item
        = resolveItemFetch projectOf (vF item.id) (vA item.id) tv item) := by
  refine ⟨fun projectOf fb tv item => rfl, ?_, ?_⟩
  · rintro projectOf primary tv item (rfl | rfl) <;> exact ⟨rfl, rfl⟩
  · intro projectOf vF vA tv item hp hc
    simp only [resolveItem, hp, hc, Bool.false_eq_true, if_false]

/-- C2 witness: the amended claim evaluated at concrete inputs. -/
theorem resolveItem_transport_spec_witness :
    (resolveItemFetch cexProjectOf none (some []) "1.21.1" cex2Item
      = resolveItemFetch cexProjectOf (some []) (some []) "1.21.1" cex2Item)
    ∧ ((resolveItemFetch cexProjectOf none none "1.21.1" cex2Item).status = "缺失" ∧
       (resolveItemFetch cexProjectOf none none "1.21.1" cex2Item).lastSupportedVersion
         = cex2Item.lastSupportedVersion)
    ∧ (resolveItem cexProjectOf cexVF cexVA "1.21.1" cex2Item
        = resolveItemFetch cexProjectOf (cexVF cex2Item.id) (cexVA cex2Item.id) "1.21.1" cex2Item) :=
  ⟨resolveItem_transport_spec.1 cexProjectOf (some []) "1.21.1" cex2Item,
   resolveItem_transport_spec.2.1 cexProjectOf none "1.21.1" cex2Item (Or.inl rfl),
   resolveItem_transport_spec.2.2 cexProjectOf cexVF cexVA "1.21.1" cex2Item rfl rfl⟩

/-- The new `CartItem` pushed by `handleResolve` for a discovered required
dependency (page.tsx lines 643–660). -/
def mkDepCartItem (tv : String) (dep : DependencyItem) : CartItem :=
  { id := dep.id, title := dep.title, source := "Modrinth", currentVersion := "未知",
    targetVersion := tv, status := "待解析", statusTone := "accent", paused := false,
    downloaded := some false, filename := none, iconUrl := dep.iconUrl,
    dependencies := some [], isDependency := some true, note := some "",
    isCustom := some false, customUrl := some "" }

/-- Accumulator of the dependency-expansion loop of `handleResolve`:
`depIds` is the `dependencyIds` set (insertion order), `selMap` the
`dependencySelectionMap` (insertion order), `items` the `dependencyItems`
array. -/
structure ExpandState where
  depIds : List String
  selMap : List (String × Bool)
  items : List CartItem
deriving DecidableEq, Repr

/-- Replace the value stored under `key` in an insertion-ordered association
list (JS `Map.set` on an existing key keeps its position). -/
def setAssoc (key : String) (b : Bool) : List (String × Bool) → List (String × Bool)
  | [] => []
  | e :: rest => if e.1 == key then (key, b) :: rest else e :: setAssoc key b rest

/-- One iteration of the inner dependency loop of `handleResolve`
(page.tsx lines 632–661): skip ids already in the list or already collected
this pass; otherwise record the parent's current selection in the map —
the `Map`-merge branch (`dependencySelectionMap.get(dep.id) || isCurrentSelected`)
is kept faithfully even though it is unreachable, because the dedup `return`
fires first for every repeated id — and push the new entry. -/
def expandDep (existingIds selected : List String) (tv : String) (parentId : String)
    (st : ExpandState) (dep : DependencyItem) : ExpandState :=
  if existingIds.contains dep.id || st.depIds.contains dep.id then st
  else
    let isCurrentSelected := selected.contains parentId
    let selMap :=
      match st.selMap.find? (fun p => p.1 == dep.id) with
      | some p => setAssoc dep.id (p.2 || isCurrentSelected) st.selMap
      | none => st.selMap ++ [(dep.id, isCurrentSelected)]
    { depIds := st.depIds ++ [dep.id], selMap := selMap,
      items := st.items ++ [mkDepCartItem tv dep] }

/-- The full dependency-expansion fold of `handleResolve` over the freshly
resolved batch. -/
def expandDependencies (existingIds selected : List String) (tv : String)
    (resolved : List CartItem) : ExpandState :=
  resolved.foldl
    (fun st item => (item.dependencies.getD []).foldl (expandDep existingIds selected tv item.id) st)
    ⟨[], [], []⟩

/-- The selection update of `handleResolve` (lines 672–678): start from the
current selection and add every dependency id whose map entry is `true`. -/
def applySelectionMap (selected : List String) (selMap : List (String × Bool)) : List String :=
  selMap.foldl
    (fun sel p => if p.2 then (if sel.contains p.1 then sel else sel ++ [p.1]) else sel)
    selected

/-- The success path of `handleResolve` (page.tsx lines 624–690): resolve the
whole cart, expand one level of required dependencies, resolve those, commit
the concatenated list with every `downloaded` flag reset to `false`, and merge
propagated selections. `runPool cart 10 resolveItem` computes exactly
`cart.map resolveItem` (the pool preserves input order slot by slot), so the pass is
written with `List.map`. Returns (committed list, updated selection). -/
def resolvePass (projectOf : String → ProjectInfoResult)
    (vF vA : String → Option (List VersionInfo)) (tv : String)
    (cart : List CartItem) (selected : List String) : List CartItem × List String :=
  let resolved := cart.map (resolveItem projectOf vF vA tv)
  let existingIds := cart.map (·.id)
  let ex := expandDependencies existingIds selected tv resolved
  if ex.items.isEmpty then
    (resolved.map (fun it => { it with downloaded := some false }), selected)
  else
    let resolvedDeps := ex.items.map (resolveItem projectOf vF vA tv)
    ((resolved ++ resolvedDeps).map (fun it => { it with downloaded := some false }),
      applySelectionMap selected ex.selMap)

/-- An unselected parent declaring required dependency "x", listed first. -/
def cexParentB : CartItem :=
  { id := "b", title := "B", source := "Modrinth", currentVersion := "1.20",
    targetVersion := "1.21.1", status := "待解析", statusTone := "accent", paused := false,
    dependencies := some [{ id := "x", title := "X" }] }

/-- A selected parent declaring the same required dependency "x", listed second. -/
def cexParentA : CartItem :=
  { id := "a", title := "A", source := "Modrinth", currentVersion := "1.20",
    targetVersion := "1.21.1", status := "待解析", statusTone := "accent", paused := false,
    dependencies := some [{ id := "x", title := "X" }] }

/-- C3, failing input: parents "b" (unselected) and "a" (selected) both
declare required dependency "x"; only "a" is selected. The expansion adds
exactly one entry for "x" (the dedup of the claim holds) but records its
selection as `false`: the dedup `return` fires before the selection merge, so
only the *first* declaring parent's selection is ever consulted and the
declared OR across parents (the unreachable `Map`-merge branch shows it was
intended) never happens. End to end, the committed pass leaves "x" out of the
selection even though selected parent "a" declares it. -/
theorem expand_selection_first_parent_wins :
    (expandDependencies ["b", "a"] ["a"] "1.21.1" [cexParentB, cexParentA]).selMap
      = [("x", false)] ∧
    (expandDependencies ["b", "a"] ["a"] "1.21.1" [cexParentB, cexParentA]).items.map (·.id)
      = ["x"] ∧
    (resolvePass cexProjectOf (fun _ => none) (fun _ => none) "1.21.1"
        [cexParentB, cexParentA] ["a"]).2 = ["a"] ∧
    (resolvePass cexProjectOf (fun _ => none) (fun _ => none) "1.21.1"
        [cexParentB, cexParentA] ["a"]).1.map (·.id) = ["b", "a", "x"] := by
  refine ⟨rfl, rfl, rfl, rfl⟩

/-- C10: every entry of the list committed by a resolution pass has its
`downloaded` flag reset to `false` — both commit branches of `handleResolve`
map `{ ...item, downloaded: false }` over the full committed list, including
paused and custom entries that the pass otherwise returns unchanged. -/
theorem resolvePass_clears_downloaded (projectOf : String → ProjectInfoResult)
    (vF vA : String → Option (List VersionInfo)) (tv : String)
    (cart : List CartItem) (selected : List String) (it : CartItem)
    (hmem : it ∈ (resolvePass projectOf vF vA tv cart selected).1) :
    it.downloaded = some false := by
  have key : ∀ l : List CartItem,
      it ∈ l.map (fun x => { x with downloaded := some false }) → it.downloaded = some false := by
    intro l hm
    rw [List.mem_map] at hm
    obtain ⟨x, -, hx⟩ := hm
    rw [← hx]
  unfold resolvePass at hmem
  dsimp only at hmem
  split at hmem
  · exact key _ hmem
  · exact key _ hmem

/-- A paused entry with a stale `downloaded = true` mark. -/
def cexPausedItem : CartItem :=
  { id := "p", title := "P", source := "Modrinth", currentVersion := "1.20",
    targetVersion := "1.21.1", status := "暫停", statusTone := "accent", paused := true,
    downloaded := some true }

/-- C10 witness: a paused entry that enters the pass with `downloaded = true`
leaves the commit with `downloaded = false`. -/
theorem resolvePass_clears_downloaded_witness :
    ({ cexPausedItem with downloaded := some false } : CartItem).downloaded = some false :=
  resolvePass_clears_downloaded cexProjectOf cexVF cexVA "1.21.1" [cexPausedItem] []
    { cexPausedItem with downloaded := some false } (by decide)

/-- The queue-draining core of `runPool` (page.tsx lines 597–614). The JS
runners share one queue and always `shift()` its head inside the
single-threaded event loop, so every schedule with at least one runner claims
the items exactly once, in queue order, each write going to the claimed
item's own `results[index]` slot; `drain` is that claim sequence. -/
def drain (w : α → α) : List (Nat × α) → List (Option α) → List (Option α)
  | [], res => res
  | (i, v) :: rest, res => drain w rest (res.set i (some (w v)))

/-- `runPool` from page.tsx: `new Array(list.length)` of unfilled slots,
a work queue of (value, index) pairs, `limit` identical runners. With
`limit = 0`, `Array.from({length: 0})` spawns no runner and the unfilled
result array is returned as is; with `limit ≥ 1` the shared queue is drained
completely (see `drain`). -/
def runPool (l : List α) (limit : Nat) (w : α → α) : List (Option α) :=
  if limit = 0 then List.replicate l.length none
  else drain w l.enum (List.replicate l.length none)

theorem drain_length (w : α → α) :
    ∀ (q : List (Nat × α)) (res : List (Option α)), (drain w q res).length = res.length := by
  intro q
  induction q with
  | nil => intro res; rfl
  | cons p rest ih =>
    intro res
    calc (drain w (p :: rest) res).length
        = (drain w rest (res.set p.1 (some (w p.2)))).length := rfl
      _ = (res.set p.1 (some (w p.2))).length := ih _
      _ = res.length := List.length_set ..

theorem drain_enumFrom_getElem? (w : α → α) (l : List α) :
    ∀ (k : Nat) (res : List (Option α)), k + l.length ≤ res.length → ∀ j,
      (drain w (List.enumFrom k l) res)[j]? =
        if k ≤ j ∧ j < k + l.length then (l[j - k]?).map (fun v => some (w v))
        else res[j]? := by
  induction l with
  | nil =>
    intro k res _ j
    rw [if_neg]
    · rfl
    · rintro ⟨h1, h2⟩
      simp only [List.length_nil] at h2
      omega
  | cons x xs ih =>
    intro k res hlen j
    simp only [List.length_cons] at hlen
    have hstep : drain w (List.enumFrom k (x :: xs)) res
        = drain w (List.enumFrom (k + 1) xs) (res.set k (some (w x))) := rfl
    have hlen' : k + 1 + xs.length ≤ (res.set k (some (w x))).length := by
      rw [List.length_set]; omega
    rw [hstep, ih (k + 1) _ hlen' j]
    by_cases h1 : j < k
    · rw [if_neg (by omega), if_neg (by simp only [List.length_cons]; omega),
        List.getElem?_set_ne (by omega)]
    · by_cases h2 : j = k
      · subst h2
        rw [if_neg (by omega), if_pos (by simp only [List.length_cons]; omega),
          List.getElem?_set_self (by omega)]
        simp
      · by_cases h3 : j < k + 1 + xs.length
        · rw [if_pos ⟨by omega, h3⟩, if_pos (by simp only [List.length_cons]; omega)]
          have hj : j - k = (j - (k + 1)) + 1 := by omega
          rw [hj, List.getElem?_cons_succ]
        · rw [if_neg (by omega), if_neg (by simp only [List.length_cons]; omega),
            List.getElem?_set_ne (by omega)]

/-- C4: for every input list, every positive concurrency limit and every
worker, `runPool` returns a fully filled result of the same length whose slot
`i` holds exactly the worker applied to input `i` — input order is preserved
independently of the interleaving, no item is dropped and none is processed
twice (each slot is written from its unique claim of the queue). -/
theorem runPool_order_spec (l : List α) (limit : Nat) (w : α → α) (hpos : 0 < limit) :
    (runPool l limit w).length = l.length ∧
    ∀ i : Nat, (runPool l limit w)[i]? = (l[i]?).map (fun v => some (w v)) := by
  have hne : ¬ limit = 0 := by omega
  constructor
  · rw [runPool, if_neg hne, drain_length, List.length_replicate]
  · intro i
    rw [runPool, if_neg hne]
    have henum : List.enum l = List.enumFrom 0 l := rfl
    rw [henum, drain_enumFrom_getElem? w l 0 (List.replicate l.length none)
      (by rw [List.length_replicate]; omega) i]
    by_cases h : i < l.length
    · rw [if_pos ⟨Nat.zero_le _, by omega⟩]
      simp
    · rw [if_neg (by omega), List.getElem?_replicate, if_neg (by omega),
        List.getElem?_eq_none (by omega)]
      rfl

/-- C4 witness: a concrete pool run with limit 2 over three items. -/
theorem runPool_order_spec_witness :
    ((runPool [1, 2, 3] 2 (· + 10)).length = 3 ∧
      (runPool [1, 2, 3] 2 (· + 10))[1]? = some (some 12)) :=
  ⟨(runPool_order_spec [1, 2, 3] 2 (· + 10) (by decide)).1,
    (runPool_order_spec [1, 2, 3] 2 (· + 10) (by decide)).2 1⟩

/-- The in-memory list state of the page: the `cartItems` array and the
`selectedMods` set (a JS `Set`, modelled as a duplicate-free insertion-ordered
list of ids). -/
structure AppState where
  items : List CartItem
  selected : List String
deriving DecidableEq, Repr

/-- `handleToggleSelection` from page.tsx (lines 1063–1073): delete the id
from the selection when present, add it otherwise. The list never changes. -/
def toggleSelection (i : String) (s : AppState) : AppState :=
  { s with selected :=
      if s.selected.contains i then s.selected.filter (fun x => x ≠ i)
      else s.selected ++ [i] }

/-- `handleRemove` from page.tsx (lines 1140–1143): filter the entry out of
`cartItems`; `selectedMods` is not touched. -/
def removeItem (i : String) (s : AppState) : AppState :=
  { s with items := s.items.filter (fun it => it.id ≠ i) }

/-- `handleAddItem` / `handleSelectSearchResult` from page.tsx: refuse ids
already in the list, otherwise push the new entry to the front. -/
def addItem (it : CartItem) (s : AppState) : AppState :=
  if s.items.any (fun x => x.id == it.id) then s else { s with items := it :: s.items }

/-- States reachable from the empty page through the list-mutating handlers
cited by the list-state invariant: add, toggle selection, remove. -/
inductive ReachableState : AppState → Prop
  | empty : ReachableState ⟨[], []⟩
  | add (it : CartItem) {s : AppState} : ReachableState s → ReachableState (addItem it s)
  | toggle (i : String) {s : AppState} : ReachableState s → ReachableState (toggleSelection i s)
  | remove (i : String) {s : AppState} : ReachableState s → ReachableState (removeItem i s)

/-- The selection-subset invariant claimed by the spec (§3 ListState). -/
def SelectionSubset (s : AppState) : Prop :=
  ∀ i ∈ s.selected, i ∈ s.items.map (·.id)

/-- An ordinary entry with id "a", used to drive the state machine. -/
def cexStateItem : CartItem :=
  { id := "a", title := "A", source := "Modrinth", currentVersion := "未知",
    targetVersion := "1.21.1", status := "待解析", statusTone := "accent", paused := false }

/-- C5, counterexample: add entry "a", select it, then remove it. The state
⟨[], ["a"]⟩ is reachable, and its selection is not a subset of the (empty)
list of present ids — `handleRemove` filters `cartItems` but never deletes
the id from `selectedMods`. -/
theorem selection_subset_cex :
    ReachableState ⟨[], ["a"]⟩ ∧ ¬ SelectionSubset ⟨[], ["a"]⟩ := by
  constructor
  · have h : removeItem "a" (toggleSelection "a" (addItem cexStateItem ⟨[], []⟩)) = ⟨[], ["a"]⟩ := by
      decide
    rw [← h]
    exact ReachableState.remove "a" (ReachableState.toggle "a"
      (ReachableState.add cexStateItem ReachableState.empty))
  · intro hsub
    have := hsub "a" (by decide)
    simp at this

/-- C5 (amended): toggling the selection of an id that is present in the list
preserves the selection-subset invariant, and adding an entry preserves it,
but removing an entry leaves the selection set unchanged — `handleRemove`
does not delete the removed id from `selectedMods` — so the subset invariant
does not hold at every reachable state (see the counterexample). -/
theorem selection_subset_spec :
    (∀ (s : AppState) (i : String), i ∈ s.items.map (·.id) → SelectionSubset s →
      SelectionSubset (toggleSelection i s))
    ∧ (∀ (s : AppState) (it : CartItem), SelectionSubset s → SelectionSubset (addItem it s))
    ∧ (∀ (s : AppState) (i : String), (removeItem i s).selected = s.selected) := by
  refine ⟨?_, ?_, fun s i => rfl⟩
  · intro s i hin hsub x hx
    unfold toggleSelection at hx
    by_cases hc : s.selected.contains i = true
    · rw [if_pos hc] at hx
      have hx' := List.mem_of_mem_filter hx
      exact hsub x hx'
    · rw [if_neg hc] at hx
      rw [List.mem_append] at hx
      rcases hx with hx | hx
      · exact hsub x hx
      · rw [List.mem_singleton] at hx
        subst hx
        exact hin
  · intro s it hsub x hx
    unfold addItem at hx ⊢
    by_cases h : s.items.any (fun y => y.id == it.id)
    · rw [if_pos h] at hx ⊢
      exact hsub x hx
    · rw [if_neg h] at hx ⊢
      simp only [List.map_cons, List.mem_cons]
      exact Or.inr (hsub x hx)

/-- C5 witness: the amended claim applied at concrete states. -/
theorem selection_subset_spec_witness :
    SelectionSubset (toggleSelection "a" ⟨[cexStateItem], []⟩) ∧
    (removeItem "a" ⟨[cexStateItem], ["a"]⟩).selected = ["a"] :=
  ⟨selection_subset_spec.1 ⟨[cexStateItem], []⟩ "a" (by decide) (by intro x hx; cases hx),
    selection_subset_spec.2.2 ⟨[cexStateItem], ["a"]⟩ "a"⟩

/-- `handleDownloadSelected` from page.tsx (lines 1075–1102): the exported
artifact is the selected entries, in list order, each contributing its
resolved filename, or the placeholder `title + "(該版本缺失)"` (the spec's
"<title>(version missing)") when the filename is absent. -/
def exportSelectedFilenames (items : List CartItem) (selected : List String) : List String :=
  (items.filter (fun it => selected.contains it.id)).map
    (fun it => it.filename.getD (it.title ++ "(該版本缺失)"))

/-- C6: the export contains exactly one string per selected entry, in list
order: position `i` of the export is the resolved filename of the `i`-th
selected entry, or the literal placeholder built from its title. -/
theorem exportSelected_spec (items : List CartItem) (selected : List String) :
    (exportSelectedFilenames items selected).length
      = (items.filter (fun it => selected.contains it.id)).length
    ∧ ∀ (i : Nat) (it : CartItem),
        (items.filter (fun it => selected.contains it.id))[i]? = some it →
        (exportSelectedFilenames items selected)[i]?
          = some (it.filename.getD (it.title ++ "(該版本缺失)")) := by
  constructor
  · exact List.length_map ..
  · intro i it hit
    unfold exportSelectedFilenames
    rw [List.getElem?_map, hit]
    rfl

/-- Scenario C resolvable entry: filename "sodium-0.5.jar". -/
def cexSodium : CartItem :=
  { id := "sodium", title := "Sodium", source := "Modrinth", currentVersion := "1.21.1",
    targetVersion := "1.21.1", status := "可更新", statusTone := "success", paused := false,
    filename := some "sodium-0.5.jar" }

/-- Scenario C missing entry: title "OldMod", no filename. -/
def cexOldMod : CartItem :=
  { id := "oldmod", title := "OldMod", source := "Modrinth", currentVersion := "1.16.5",
    targetVersion := "-", status := "缺失", statusTone := "warning", paused := false,
    filename := none }

/-- C6 witness: spec scenario C — exporting the two selected entries yields
["sodium-0.5.jar", "OldMod(該版本缺失)"] in list order. -/
theorem exportSelected_spec_witness :
    (exportSelectedFilenames [cexSodium, cexOldMod] ["sodium", "oldmod"])[1]?
      = some (cexOldMod.filename.getD (cexOldMod.title ++ "(該版本缺失)")) :=
  (exportSelected_spec [cexSodium, cexOldMod] ["sodium", "oldmod"]).2 1 cexOldMod (by decide)

/-- A posted list item as far as the share-code hash is concerned: the seven
fields the route's `computeHash` projects (anything else in the posted item is
carried through storage verbatim and never inspected by the route). -/
structure ShareItem where
  id : String
  title : String
  isDependency : Option Bool := none
  isSelected : Option Bool := none
  note : Option String := none
  isCustom : Option Bool := none
  customUrl : Option String := none
deriving DecidableEq, Repr

/-- The canonical projection of one item inside `computeHash`:
`{id, title, isDependency, isSelected, note: note ?? "", isCustom: Boolean(isCustom), customUrl: customUrl ?? ""}`. -/
structure ProjItem where
  id : String
  title : String
  isDependency : Option Bool
  isSelected : Option Bool
  note : String
  isCustom : Bool
  customUrl : String
deriving DecidableEq, Repr

/-- The body of a share-code `POST`: `{targetVersion, loader, items}`
(plus the optional `code`, passed separately below). -/
structure ShareBody where
  targetVersion : String
  loader : String
  items : List ShareItem
deriving DecidableEq, Repr

/-- Item projection from `computeHash`. -/
def projectShareItem (it : ShareItem) : ProjItem :=
  { id := it.id, title := it.title, isDependency := it.isDependency,
    isSelected := it.isSelected, note := it.note.getD "",
    isCustom := it.isCustom.getD false, customUrl := it.customUrl.getD "" }

/-- The canonical value `computeHash` serialises with fixed key order:
`{targetVersion, loader, items: projection}`. -/
def projectBody (b : ShareBody) : String × String × List ProjItem :=
  (b.targetVersion, b.loader, b.items.map projectShareItem)

/-- `computeHash` from the share-code route: a digest (SHA-256 hex in the
source, abstracted to `digest` — the route only ever compares hashes for
equality) of the canonical JSON of the projected body. -/
def computeHash (digest : String × String × List ProjItem → String) (b : ShareBody) : String :=
  digest (projectBody b)

/-- A stored share-code record (`StoredPayload` in `src/src/lib/db.ts`). -/
structure StoredPayload where
  targetVersion : String
  loader : String
  items : List ShareItem
  contentHash : String
  savedAt : String
deriving DecidableEq, Repr

/-- The share-code store: the `share_codes` table keyed by uppercase code, as
an insertion-ordered association list. -/
abbrev ShareStore : Type := List (String × StoredPayload)

/-- JS `String.prototype.toUpperCase()` on the ASCII strings involved:
uppercase every character. -/
def strUpper (s : String) : String := String.mk (s.data.map Char.toUpper)

/-- Row lookup by exact key (`SELECT * FROM share_codes WHERE id = ?`). -/
def lookupCode (store : ShareStore) (key : String) : Option StoredPayload :=
  ((store : List (String × StoredPayload)).find? (fun e => e.1 == key)).map (·.2)

/-- `getShareCode` from `src/src/lib/db.ts`: lookup under the uppercased code. -/
def getShareCode (store : ShareStore) (code : String) : Option StoredPayload :=
  lookupCode store (strUpper code)

/-- In-place upsert on the association list: replace the first row with this
key, append a fresh row otherwise (`INSERT OR REPLACE` keyed by `id`). -/
def upsert : List (String × StoredPayload) → String → StoredPayload → List (String × StoredPayload)
  | [], key, p => [(key, p)]
  | e :: rest, key, p => if e.1 == key then (key, p) :: rest else e :: upsert rest key p

/-- `saveShareCode` from `src/src/lib/db.ts`: upsert under the uppercased code. -/
def saveShareCode (store : ShareStore) (code : String) (p : StoredPayload) : ShareStore :=
  upsert store (strUpper code) p

/-- `findShareCodeByHash` from `src/src/lib/db.ts`:
`SELECT id FROM share_codes WHERE contentHash = ? LIMIT 1`. -/
def findShareCodeByHash (store : ShareStore) (h : String) : Option String :=
  ((store : List (String × StoredPayload)).find? (fun e => e.2.contentHash == h)).map (·.1)

/-- The route's code alphabet: `"ABCDEFGHIJKLMNOPQRSTUVWXYZ0123456789"`. -/
def codeAlphabet : String := "ABCDEFGHIJKLMNOPQRSTUVWXYZ0123456789"

/-- `generateCode` from the share-code route: 8 random bytes, each reduced
modulo the 36-symbol alphabet and mapped to its character. -/
def generateCode (bytes : List Nat) : String :=
  String.mk (bytes.map (fun b => codeAlphabet.data.getD (b % codeAlphabet.data.length) 'A'))

/-- The collision-retry loop of the route's `POST`
(`while (getShareCode(code) && attempts < 100) { code = generateCode(); attempts++; }`):
`gen i` is the `i`-th code produced by the random source, `fuel` the remaining
allowance `100 - attempts`. Returns the final `(code, attempts)`. -/
def genLoop (store : ShareStore) (gen : Nat → String) : Nat → Nat → String → String × Nat
  | 0, attempts, code => (code, attempts)
  | fuel + 1, attempts, code =>
    if (getShareCode store code).isSome then genLoop store gen fuel (attempts + 1) (gen (attempts + 1))
    else (code, attempts)

/-- Outcome of the share-code `POST`. -/
inductive PostResult where
  | badRequest : PostResult
  | genError : PostResult
  | ok (code : String) (updated : Bool) (store : ShareStore) : PostResult
deriving DecidableEq, Repr

/-- The fresh-code path of `POST` (no usable existing code): content-addressed
dedup via `findShareCodeByHash`, then generate with at most 100 retries,
failing with `"Failed to generate unique code"` when `attempts >= 100`,
otherwise store the new payload and return it unupdated. -/
def postFresh (gen : Nat → String) (now : String) (store : ShareStore)
    (body : ShareBody) (contentHash : String) : PostResult :=
  match findShareCodeByHash store contentHash with
  | some c => .ok c false store
  | none =>
    let r := genLoop store gen 100 0 (gen 0)
    if 100 ≤ r.2 then .genError
    else .ok r.1 false
      (saveShareCode store r.1
        ⟨body.targetVersion, body.loader, body.items, contentHash, now⟩)

/-- The share-code `POST` handler (db-backed variant, page.tsx appended route
document lines 1844–1920; the file-store `route.ts` differs only in backing
store shape and in leaving the retry loop unbounded). `reqCode` is `body.code`. -/
def postShare (digest : String × String × List ProjItem → String) (gen : Nat → String)
    (now : String) (store : ShareStore) (reqCode : Option String)
    (body : ShareBody) : PostResult :=
  if body.targetVersion = "" ∨ body.loader = "" then .badRequest
  else
    let contentHash := computeHash digest body
    match reqCode with
    | some rc =>
      let rcU := strUpper rc
      match getShareCode store rcU with
      | some existing =>
        if existing.contentHash = contentHash then .ok rcU false store
        else .ok rcU true
          (saveShareCode store rcU
            ⟨body.targetVersion, body.loader, body.items, contentHash, now⟩)
      | none => postFresh gen now store body contentHash
    | none => postFresh gen now store body contentHash

theorem lookup_upsert_self (store : List (String × StoredPayload)) (k : String) (p : StoredPayload) :
    lookupCode (upsert store k p) k = some p := by
  induction store with
  | nil => simp [upsert, lookupCode]
  | cons e rest ih =>
    by_cases h : e.1 == k
    · simp [upsert, h, lookupCode]
    · unfold upsert
      rw [if_neg (by simpa using h)]
      unfold lookupCode at ih ⊢
      rw [List.find?_cons_of_neg _ (by simpa using h)]
      exact ih

theorem upsert_of_lookup_none (store : List (String × StoredPayload)) (k : String)
    (p : StoredPayload) (h : lookupCode store k = none) :
    upsert store k p = store ++ [(k, p)] := by
  induction store with
  | nil => rfl
  | cons e rest ih =>
    by_cases hk : e.1 == k
    · have hfind : List.find? (fun x => x.1 == k) (e :: rest) = some e :=
        List.find?_cons_of_pos _ hk
      rw [lookupCode, hfind] at h
      cases h
    · unfold upsert
      rw [if_neg (by simpa using hk)]
      have hrest : lookupCode rest k = none := by
        unfold lookupCode at h ⊢
        rwa [List.find?_cons_of_neg _ (by simpa using hk)] at h
      rw [ih hrest]
      rfl

theorem genLoop_attempts_le (store : ShareStore) (gen : Nat → String) :
    ∀ (fuel attempts : Nat) (code : String),
      (genLoop store gen fuel attempts code).2 ≤ attempts + fuel := by
  intro fuel
  induction fuel with
  | zero => intro attempts code; simp [genLoop]
  | succ n ih =>
    intro attempts code
    unfold genLoop
    by_cases h : (getShareCode store code).isSome
    · rw [if_pos h]
      have := ih (attempts + 1) (gen (attempts + 1))
      omega
    · rw [if_neg h]
      simp only
      omega

theorem genLoop_fresh (store : ShareStore) (gen : Nat → String) :
    ∀ (fuel attempts : Nat) (code : String),
      (genLoop store gen fuel attempts code).2 < attempts + fuel →
      getShareCode store (genLoop store gen fuel attempts code).1 = none := by
  intro fuel
  induction fuel with
  | zero => intro attempts code h; simp [genLoop] at h
  | succ n ih =>
    intro attempts code h
    unfold genLoop at h ⊢
    by_cases hc : (getShareCode store code).isSome
    · rw [if_pos hc] at h ⊢
      exact ih (attempts + 1) (gen (attempts + 1)) (by omega)
    · rw [if_neg hc] at h ⊢
      simpa using hc

theorem genLoop_code_eq_gen (store : ShareStore) (gen : Nat → String) :
    ∀ (fuel attempts : Nat),
      (genLoop store gen fuel attempts (gen attempts)).1
        = gen (genLoop store gen fuel attempts (gen attempts)).2 := by
  intro fuel
  induction fuel with
  | zero => intro attempts; rfl
  | succ n ih =>
    intro attempts
    unfold genLoop
    by_cases hc : (getShareCode store (gen attempts)).isSome
    · rw [if_pos hc]
      exact ih (attempts + 1)
    · rw [if_neg hc]

/-- C7: when `POST` receives an existing code whose stored fingerprint differs
from the submitted state's fingerprint, the payload stored under that same
(uppercased) code is overwritten with the new state and the call returns that
same code with `updated = true`. -/
theorem postShare_update_spec (digest : String × String × List ProjItem → String)
    (gen : Nat → String) (now : String) (store : ShareStore) (rc : String)
    (body : ShareBody) (existing : StoredPayload)
    (h1 : body.targetVersion ≠ "") (h2 : body.loader ≠ "")
    (h3 : getShareCode store (strUpper rc) = some existing)
    (h4 : existing.contentHash ≠ computeHash digest body) :
    postShare digest gen now store (some rc) body
      = .ok (strUpper rc) true (saveShareCode store (strUpper rc)
          ⟨body.targetVersion, body.loader, body.items, computeHash digest body, now⟩)
    ∧ getShareCode (saveShareCode store (strUpper rc)
          ⟨body.targetVersion, body.loader, body.items, computeHash digest body, now⟩)
        (strUpper rc)
      = some ⟨body.targetVersion, body.loader, body.items, computeHash digest body, now⟩ := by
  constructor
  · unfold postShare
    rw [if_neg (fun hor => hor.elim h1 h2)]
    dsimp only
    rw [h3]
    dsimp only
    rw [if_neg h4]
  · show lookupCode (upsert store (strUpper (strUpper rc)) _) (strUpper (strUpper rc)) = _
    exact lookup_upsert_self store (strUpper (strUpper rc)) _

/-- A digest standing in for SHA-256 hex: constant, since only equality
of fingerprints matters here. -/
def cexDigest : String × String × List ProjItem → String := fun _ => "h-new"

/-- A random source producing a fixed fresh code. -/
def cexGen : Nat → String := fun _ => "ZZZZZZZZ"

/-- A stored record whose fingerprint is "h-old". -/
def cexOldPayload : StoredPayload := ⟨"1.20.1", "fabric", [], "h-old", "t0"⟩

/-- A store holding the code "ABCD1234". -/
def cexStore : ShareStore := [("ABCD1234", cexOldPayload)]

/-- A valid posted body (hashing to "h-new" under `cexDigest`). -/
def cexBody : ShareBody := ⟨"1.21.1", "fabric", []⟩

/-- C7 witness: resubmitting under "ABCD1234" with changed content overwrites
that record in place and reports `updated = true`. -/
theorem postShare_update_spec_witness :
    postShare cexDigest cexGen "t1" cexStore (some "ABCD1234") cexBody
      = .ok (strUpper "ABCD1234") true (saveShareCode cexStore (strUpper "ABCD1234")
          ⟨cexBody.targetVersion, cexBody.loader, cexBody.items, computeHash cexDigest cexBody, "t1"⟩)
    ∧ getShareCode (saveShareCode cexStore (strUpper "ABCD1234")
          ⟨cexBody.targetVersion, cexBody.loader, cexBody.items, computeHash cexDigest cexBody, "t1"⟩)
        (strUpper "ABCD1234")
      = some ⟨cexBody.targetVersion, cexBody.loader, cexBody.items, computeHash cexDigest cexBody, "t1"⟩ :=
  postShare_update_spec cexDigest cexGen "t1" cexStore "ABCD1234" cexBody cexOldPayload
    (by decide) (by decide) (by decide) (by decide)

/-- C8: (1) with no existing code supplied, if some stored record already has
exactly the submitted fingerprint, `POST` returns that record's code with
`updated = false` and writes nothing; (2) issuing the same content twice (no
code supplied) returns the same code both times and leaves the store of the
first issuance untouched — no second record is ever created. The `gen`
condition states that the random source emits uppercase codes, as
`generateCode` does (its alphabet is uppercase letters and digits). -/
theorem postShare_dedup_spec :
    (∀ (digest : String × String × List ProjItem → String) (gen : Nat → String) (now : String)
        (store : ShareStore) (body : ShareBody) (c : String),
      body.targetVersion ≠ "" → body.loader ≠ "" →
      findShareCodeByHash store (computeHash digest body) = some c →
      postShare digest gen now store none body = .ok c false store)
    ∧ (∀ (digest : String × String × List ProjItem → String) (gen : Nat → String)
        (now now' : String) (store store' : ShareStore) (body : ShareBody) (c : String) (u : Bool),
      (∀ i, strUpper (gen i) = gen i) →
      postShare digest gen now store none body = .ok c u store' →
      postShare digest gen now' store' none body = .ok c false store') := by
  constructor
  · intro digest gen now store body c h1 h2 hf
    unfold postShare
    rw [if_neg (fun hor => hor.elim h1 h2)]
    dsimp only
    unfold postFresh
    rw [hf]
  · intro digest gen now now' store store' body c u hgen h
    unfold postShare at h ⊢
    by_cases hv : body.targetVersion = "" ∨ body.loader = ""
    · rw [if_pos hv] at h
      cases h
    · rw [if_neg hv] at h ⊢
      dsimp only at h ⊢
      unfold postFresh at h ⊢
      rcases hf : findShareCodeByHash store (computeHash digest body) with _ | c0
      · rw [hf] at h
        by_cases hA : 100 ≤ (genLoop store gen 100 0 (gen 0)).2
        · rw [if_pos hA] at h
          cases h
        · rw [if_neg hA] at h
          simp only [PostResult.ok.injEq] at h
          obtain ⟨hc, -, hs⟩ := h
          have hrg : (genLoop store gen 100 0 (gen 0)).1
              = gen (genLoop store gen 100 0 (gen 0)).2 := genLoop_code_eq_gen store gen 100 0
          have hupfix : strUpper (genLoop store gen 100 0 (gen 0)).1
              = (genLoop store gen 100 0 (gen 0)).1 := by
            rw [hrg]
            exact hgen _
          have hfresh : getShareCode store (genLoop store gen 100 0 (gen 0)).1 = none :=
            genLoop_fresh store gen 100 0 (gen 0) (by omega)
          have hfind' : findShareCodeByHash store' (computeHash digest body)
              = some (genLoop store gen 100 0 (gen 0)).1 := by
            rw [← hs]
            unfold saveShareCode
            rw [hupfix]
            rw [upsert_of_lookup_none store _ _ (by rw [← hupfix]; exact hfresh)]
            unfold findShareCodeByHash
            rw [List.find?_append]
            have hnone : List.find? (fun e => e.2.contentHash == computeHash digest body) store
                = none := by
              rcases hq : List.find? (fun e => e.2.contentHash == computeHash digest body) store
                with _ | q
              · exact hq
              · unfold findShareCodeByHash at hf
                rw [hq] at hf
                cases hf
            rw [hnone, Option.none_or, List.find?_cons_of_pos _ (by simp)]
            rfl
          rw [hfind', hc]
      · rw [hf] at h
        simp only [PostResult.ok.injEq] at h
        obtain ⟨hc, -, hs⟩ := h
        subst hc
        subst hs
        rw [hf]

/-- A random source producing a fixed uppercase-stable code. -/
def cexGen8 : Nat → String := fun _ => "CODE1234"

/-- The store produced by a first fresh issuance of `cexBody`. -/
def cexStoreAfter : ShareStore :=
  [("CODE1234", ⟨"1.21.1", "fabric", [], "h-new", "t0"⟩)]

/-- C8 witness: the dedup branch and the issue-twice round trip, on concrete
stores. -/
theorem postShare_dedup_spec_witness :
    postShare cexDigest cexGen8 "t1" cexStoreAfter none cexBody
      = .ok "CODE1234" false cexStoreAfter
    ∧ postShare cexDigest cexGen8 "t1" cexStoreAfter none cexBody
      = .ok "CODE1234" false cexStoreAfter :=
  ⟨postShare_dedup_spec.1 cexDigest cexGen8 "t1" cexStoreAfter cexBody "CODE1234"
      (by decide) (by decide) (by decide),
    postShare_dedup_spec.2 cexDigest cexGen8 "t0" "t1" [] cexStoreAfter cexBody "CODE1234" false
      (fun _ => rfl) (by decide)⟩

theorem genLoop_all_collide (store : ShareStore) (gen : Nat → String)
    (hall : ∀ i, (getShareCode store (gen i)).isSome) :
    ∀ (fuel attempts : Nat),
      (genLoop store gen fuel attempts (gen attempts)).2 = attempts + fuel := by
  intro fuel
  induction fuel with
  | zero => intro attempts; rfl
  | succ n ih =>
    intro attempts
    unfold genLoop
    rw [if_pos (hall attempts), ih (attempts + 1)]
    omega

/-- C9: a freshly generated code is 8 characters long, every character drawn
from the 36-symbol alphabet A–Z, 0–9; the collision loop retries at most 100
times; and when every code the random source can produce collides with a
stored code, `POST` exhausts the bound and fails with the generation error
(HTTP 500, "Failed to generate unique code"). -/
theorem shareCode_generation_spec :
    (∀ bytes : List Nat, bytes.length = 8 →
      (generateCode bytes).length = 8 ∧ ∀ ch ∈ (generateCode bytes).data, ch ∈ codeAlphabet.data)
    ∧ (∀ (store : ShareStore) (gen : Nat → String), (genLoop store gen 100 0 (gen 0)).2 ≤ 100)
    ∧ (∀ (digest : String × String × List ProjItem → String) (gen : Nat → String) (now : String)
        (store : ShareStore) (body : ShareBody),
      body.targetVersion ≠ "" → body.loader ≠ "" →
      findShareCodeByHash store (computeHash digest body) = none →
      (∀ i, (getShareCode store (gen i)).isSome) →
      postShare digest gen now store none body = .genError) := by
  refine ⟨?_, ?_, ?_⟩
  · intro bytes hlen
    constructor
    · show (bytes.map _).length = 8
      rw [List.length_map]
      exact hlen
    · intro ch hch
      rw [show (generateCode bytes).data = bytes.map
          (fun b => codeAlphabet.data.getD (b % codeAlphabet.data.length) 'A') from rfl,
        List.mem_map] at hch
      obtain ⟨b, -, hb⟩ := hch
      have hidx : b % codeAlphabet.data.length < codeAlphabet.data.length :=
        Nat.mod_lt _ (by decide)
      rw [← hb, List.getD_eq_getElem codeAlphabet.data 'A' hidx]
      exact List.getElem_mem hidx
  · intro store gen
    exact genLoop_attempts_le store gen 100 0 (gen 0)
  · intro digest gen now store body h1 h2 hf hall
    unfold postShare
    rw [if_neg (fun hor => hor.elim h1 h2)]
    dsimp only
    unfold postFresh
    rw [hf]
    have hcnt := genLoop_all_collide store gen hall 100 0
    rw [if_pos (by omega)]

/-- A store colliding with every code the (degenerate) source can produce. -/
def cexStore9 : ShareStore := [("C1", ⟨"1.20.1", "fabric", [], "h-old", "t0"⟩)]

/-- A random source stuck on the stored code "C1". -/
def cexGen9 : Nat → String := fun _ => "C1"

/-- C9 witness: the generation properties at a concrete byte string, and the
exhaustion failure on a store that collides with every generated code. -/
theorem shareCode_generation_spec_witness :
    ((generateCode [0, 1, 2, 35, 36, 100, 200, 255]).length = 8 ∧
      ∀ ch ∈ (generateCode [0, 1, 2, 35, 36, 100, 200, 255]).data, ch ∈ codeAlphabet.data)
    ∧ (genLoop cexStore9 cexGen9 100 0 (cexGen9 0)).2 ≤ 100
    ∧ postShare cexDigest cexGen9 "t1" cexStore9 none cexBody = .genError :=
  ⟨shareCode_generation_spec.1 [0, 1, 2, 35, 36, 100, 200, 255] rfl,
    shareCode_generation_spec.2.1 cexStore9 cexGen9,
    shareCode_generation_spec.2.2 cexDigest cexGen9 "t1" cexStore9 cexBody
      (by decide) (by decide) (by decide) (fun _ => rfl)⟩
